import Mathlib

/-!
Verification development for the SafeHer client-side persistence and query
layer. The definitions below are a shallow embedding of the JavaScript source:
`DatabaseManager` (the IndexedDB wrapper), `UserManager.deleteAccount`,
`APIService.processOfflineQueue`, `SOSManager`, `LocationManager`,
`CommunityManager` and `Utils.calculateDistance`. JavaScript numbers are
modelled as real numbers where the code does real arithmetic (coordinates,
ratings, distances) and as naturals where the code uses them as identifiers,
counters or timestamps. Asynchronous operations are modelled as pure state
transformers; the `{success, error}` result objects are modelled with `Except`
or a returned success flag.
-/

namespace SafeHer

/-- Error taxonomy of the persistence layer (spec section 7): unique-index
collision, missing record, and argument validation failure. -/
inductive DBError where
  | constraintViolation
  | notFound
  | invalidArgument
deriving Repr, DecidableEq

/-- A record as stored by the engine: the optional synthetic primary key
(`id`), the optional creation timestamp (`created_at`, an epoch instant
modelled as a natural number), and the remaining payload fields `data`. -/
structure DBRecord (α : Type) where
  id : Option Nat
  created_at : Option Nat
  data : α
deriving Repr, DecidableEq

/-- One IndexedDB object store (part_009): rows keyed by the integer primary
key, together with the auto-increment key generator. -/
structure Store (α : Type) where
  rows : List (Nat × DBRecord α)
  nextKey : Nat
deriving Repr, DecidableEq

/-- Key-generator invariant maintained by IndexedDB: every persisted key is
strictly below the generator value. -/
def Store.WF {α : Type} (s : Store α) : Prop :=
  ∀ p ∈ s.rows, p.1 < s.nextKey

instance {α : Type} (s : Store α) : Decidable s.WF := by
  unfold Store.WF; infer_instance

/-- Embeds `DatabaseManager.add` (part_009 lines 113-134) over a store whose schema
declares at most one unique index, whose value `ukey` extracts from the
payload. The wrapper stamps `created_at` when absent, then issues
`store.add(data)`. Modelled from the spec: the IndexedDB `add` semantics (the
platform engine is not part of the repository) — the key is the record's own
`id` when present, otherwise the generator value; the request fails with
`ConstraintViolation` when the key or a non-null unique-index value collides
with an existing row (a null indexed value is not indexed, so it never
collides); on success the key is injected into the stored record and the
generator is bumped past the used key. -/
def Store.add {α : Type} {κ : Type} [DecidableEq κ] (ukey : α → Option κ)
    (now : Nat) (s : Store α) (r : DBRecord α) :
    Except DBError (Store α × Nat) :=
  let r1 : DBRecord α :=
    if r.created_at.isNone then { r with created_at := some now } else r
  let key : Nat := r.id.getD s.nextKey
  if s.rows.any (fun p => decide (p.1 = key)) then
    .error .constraintViolation
  else
    match ukey r1.data with
    | some v =>
      if s.rows.any (fun p => decide (ukey p.2.data = some v)) then
        .error .constraintViolation
      else
        .ok ({ rows := s.rows ++ [(key, { r1 with id := some key })],
               nextKey := max s.nextKey (key + 1) }, key)
    | none =>
      .ok ({ rows := s.rows ++ [(key, { r1 with id := some key })],
             nextKey := max s.nextKey (key + 1) }, key)

/-- Embeds `DatabaseManager.get` (part_009 lines 139-153): resolve the record stored
under the key, or `undefined` (here `none`) when absent. -/
def Store.get {α : Type} (s : Store α) (key : Nat) : Option (DBRecord α) :=
  (s.rows.find? (fun p => decide (p.1 = key))).map (fun p => p.2)

/-- Embeds `DatabaseManager.getAll` (part_009 lines 158-172): every record in the
store. -/
def Store.getAll {α : Type} (s : Store α) : List (DBRecord α) :=
  s.rows.map (fun p => p.2)

/-- Embeds `DatabaseManager.getByIndex` (part_009 lines 177-192) for a non-unique
integer-valued index whose key `f` extracts from the payload: every record
whose indexed value equals `v`. -/
def Store.getByIndex {α : Type} (s : Store α) (f : α → Nat) (v : Nat) :
    List (DBRecord α) :=
  (s.rows.map (fun p => p.2)).filter (fun r => decide (f r.data = v))

/-- Embeds `DatabaseManager.update` (part_009 lines 197-212): `store.put` is an
upsert keyed by the record's own `id` — it replaces the row with that key or
inserts one; with an absent `id` the generator assigns a fresh key. The stores
this development updates through `put` declare no unique index. -/
def Store.put {α : Type} (s : Store α) (r : DBRecord α) : Store α × Nat :=
  match r.id with
  | some k =>
    if s.rows.any (fun p => decide (p.1 = k)) then
      ({ s with rows := s.rows.map (fun p => if p.1 = k then (k, r) else p) }, k)
    else
      ({ rows := s.rows ++ [(k, r)], nextKey := max s.nextKey (k + 1) }, k)
  | none =>
    ({ rows := s.rows ++ [(s.nextKey, { r with id := some s.nextKey })],
       nextKey := s.nextKey + 1 }, s.nextKey)

/-- Embeds `DatabaseManager.delete` (part_009 lines 217-231): `store.delete` removes
the key and resolves `true` whether or not the key was present, so the
operation is total — deleting an absent id is not an error. -/
def Store.delete {α : Type} (s : Store α) (key : Nat) : Store α :=
  { s with rows := s.rows.filter (fun p => !decide (p.1 = key)) }

/-- One entry of the offline write queue (part_001 line 163): the endpoint and
the serialized request options. -/
structure QueuedRequest where
  endpoint : String
  options : String
deriving Repr, DecidableEq

/-- What one run of `APIService.processOfflineQueue` did: the requests issued
to `APIService.request` in order, their success flags, and the queue left
behind. -/
structure ReplayPass where
  attempted : List QueuedRequest
  results : List Bool
  finalQueue : List QueuedRequest
deriving Repr, DecidableEq

/-- Embeds `APIService.processOfflineQueue` (part_001 lines 172-193): snapshot the
persisted queue; when it is empty return at once; otherwise issue every entry
in order through `APIService.request` — which never throws and reports success
as a flag, modelled by the external collaborator `send` — and afterwards
remove the whole queue, regardless of the individual outcomes. -/
def processOfflineQueue (send : QueuedRequest → Bool)
    (queue : List QueuedRequest) : ReplayPass :=
  if queue.isEmpty then
    { attempted := [], results := [], finalQueue := queue }
  else
    { attempted := queue, results := queue.map send, finalQueue := [] }

/-- User payload fields (src/js/modules/user.js): guests carry a null phone
number. -/
structure UserData where
  phone_number : Option String
  name : String
  email : Option String
  is_guest : Bool
deriving Repr, DecidableEq

/-- Emergency-contact payload fields (the `user_id` foreign key and the fields
the contacts module writes). -/
structure ContactData where
  user_id : Nat
  name : String
  phone_number : String
  priority : Nat
deriving Repr, DecidableEq

/-- Evidence payload fields (the `user_id` foreign key and the evidence
type). -/
structure EvidenceData where
  user_id : Nat
  type : String
deriving Repr, DecidableEq

/-- The slice of application state account deletion touches: the `users`,
`emergency_contacts` and `evidence` stores, plus the session pointer held
outside the store. -/
structure AppState where
  users : Store UserData
  contacts : Store ContactData
  evidence : Store EvidenceData
  currentUser : Option (DBRecord UserData)
deriving Repr, DecidableEq

/-- Embeds `UserManager.deleteAccount` (src/js/modules/user.js lines 223-254): with no
logged-in user or an unconfirmed dialog nothing happens; otherwise the code
issues exactly one `dbManager.delete('users', userId)` — the inline comment
claims "cascade will delete related data", but no delete is issued against any
other store and IndexedDB has no cascading deletes — and then logs out. A
session record lacking an `id` would make that single delete reject, caught
into a failure result. Returns the new state and the success flag. -/
def deleteAccount (confirmed : Bool) (st : AppState) : AppState × Bool :=
  match st.currentUser with
  | none => (st, false)
  | some u =>
    if !confirmed then (st, false)
    else
      match u.id with
      | none => (st, false)
      | some uid =>
        ({ st with users := st.users.delete uid, currentUser := none }, true)

/-- The records of a user-scoped store that reference a given user id. -/
def referencing {α : Type} (s : Store α) (f : α → Nat) (uid : Nat) :
    List (DBRecord α) :=
  (s.rows.map (fun p => p.2)).filter (fun r => decide (f r.data = uid))

/-- Embeds `CONFIG.SOS_STATUS` (part_008 lines 108-112). -/
inductive SOSStatus where
  | active
  | cancelled
  | resolved
deriving Repr, DecidableEq

/-- SOS alert payload fields (part_005 lines 33-41). -/
structure AlertData where
  user_id : Nat
  triggered_at : Nat
  status : SOSStatus
  resolved_at : Option Nat
  notes : String
deriving Repr, DecidableEq

/-- The slice of state the SOS module touches: the `sos_alerts` store, the id
of the in-flight alert held by `SOSManager.currentAlert`, and the session. -/
structure SOSState where
  alerts : Store AlertData
  currentAlert : Option Nat
  currentUser : Option Nat
deriving Repr, DecidableEq

/-- Embeds `SOSManager.triggerSOS` (part_005 lines 14-73): requires a logged-in user,
then inserts a fresh alert record with status `active` and remembers it as the
in-flight alert. A rejected insert is caught into a failure result. -/
def triggerSOS (st : SOSState) (now : Nat) : SOSState × Bool :=
  match st.currentUser with
  | none => (st, false)
  | some uid =>
    let fresh : DBRecord AlertData :=
      { id := none, created_at := none,
        data := { user_id := uid, triggered_at := now, status := .active,
                  resolved_at := none, notes := "" } }
    match st.alerts.add (fun _ => (none : Option Nat)) now fresh with
    | .error _ => (st, false)
    | .ok (s1, aid) =>
      ({ st with alerts := s1, currentAlert := some aid }, true)

/-- Embeds `SOSManager.cancelSOS` (part_005 lines 78-106): with no in-flight alert it
succeeds at once; otherwise it re-reads the alert by id and unconditionally
sets its status to `cancelled` (stamping `resolved_at`), writes it back with
`put`, and clears the in-flight alert. A missing record makes the property
write throw, caught into a failure result. -/
def cancelSOS (st : SOSState) (now : Nat) : SOSState × Bool :=
  match st.currentAlert with
  | none => (st, true)
  | some aid =>
    match st.alerts.get aid with
    | none => (st, false)
    | some a =>
      let d1 : AlertData :=
        { a.data with status := SOSStatus.cancelled, resolved_at := some now }
      let a1 : DBRecord AlertData := { a with data := d1 }
      ({ st with alerts := (st.alerts.put a1).1, currentAlert := none }, true)

/-- Embeds `SOSManager.resolveSOS` (part_005 lines 111-132): reads any alert by id —
there is no check that it is currently `active` — and unconditionally sets its
status to `resolved`, stamps `resolved_at`, overwrites the notes, and writes it
back with `put`. The in-flight alert pointer is not cleared. -/
def resolveSOS (st : SOSState) (aid : Nat) (notes : String) (now : Nat) :
    SOSState × Bool :=
  match st.alerts.get aid with
  | none => (st, false)
  | some a =>
    let d1 : AlertData :=
      { a.data with
        status := SOSStatus.resolved
        resolved_at := some now
        notes := notes }
    let a1 : DBRecord AlertData := { a with data := d1 }
    ({ st with alerts := (st.alerts.put a1).1 }, true)

/-- The SOS operations a caller can run, with the inputs the embedding keeps
explicit (timestamps, the resolve target and notes). -/
inductive SOSOp where
  | trigger (now : Nat)
  | cancel (now : Nat)
  | resolve (aid : Nat) (notes : String) (now : Nat)
deriving Repr, DecidableEq

/-- Run one SOS operation, keeping only the state. -/
def applySOSOp (st : SOSState) : SOSOp → SOSState
  | .trigger now => (triggerSOS st now).1
  | .cancel now => (cancelSOS st now).1
  | .resolve aid notes now => (resolveSOS st aid notes now).1

/-- Run a sequence of SOS operations in order. -/
def applySOSOps (st : SOSState) (ops : List SOSOp) : SOSState :=
  ops.foldl applySOSOp st

/-- The status of the alert stored under a key, when present. -/
def alertStatus (st : SOSState) (k : Nat) : Option SOSStatus :=
  (st.alerts.get k).map (fun r => r.data.status)

/-- Location-history payload fields (part_003 lines 22-30); the timestamp is
the epoch instant `new Date(timestamp)` yields. -/
structure LocationData where
  user_id : Nat
  latitude : ℝ
  longitude : ℝ
  timestamp : Nat

/-- Embeds `LocationManager.getLocationHistory` (part_003 lines 47-69): with no
logged-in user, the empty list; otherwise the user's records from the
`user_id` index, sorted newest-first by the comparator
`new Date(b.timestamp) - new Date(a.timestamp)` (a stable sort, modelled by
`mergeSort`), then — only when `limit` is truthy, i.e. nonzero — cut to the
first `limit` entries. -/
def getLocationHistory (currentUser : Option Nat) (s : Store LocationData)
    (limit : Nat) : List (DBRecord LocationData) :=
  match currentUser with
  | none => []
  | some uid =>
    let locations := s.getByIndex (fun l => l.user_id) uid
    let sorted :=
      locations.mergeSort (fun a b => decide (b.data.timestamp ≤ a.data.timestamp))
    if limit ≠ 0 then sorted.take limit else sorted

/-- Embeds `LocationManager.getLocationHistory` with its default argument
`limit = 100`. -/
def getLocationHistoryDefault (currentUser : Option Nat)
    (s : Store LocationData) : List (DBRecord LocationData) :=
  getLocationHistory currentUser s 100

open Classical in
/-- JavaScript `Math.atan2(y, x)`: the angle of the point `(x, y)`, by case on
the quadrant, idealized over the reals (the NaN and signed-zero cases do not
arise for real inputs). -/
noncomputable def atan2 (y x : ℝ) : ℝ :=
  if 0 < x then Real.arctan (y / x)
  else if x < 0 then
    (if 0 ≤ y then Real.arctan (y / x) + Real.pi
     else Real.arctan (y / x) - Real.pi)
  else
    (if 0 < y then Real.pi / 2
     else if y < 0 then -(Real.pi / 2)
     else 0)

/-- Embeds `Utils.calculateDistance` (part_007 lines 512-525): the haversine
great-circle distance in meters between two latitude/longitude points, with
Earth radius 6,371,000 m. -/
noncomputable def calculateDistance (lat1 lon1 lat2 lon2 : ℝ) : ℝ :=
  let R : ℝ := 6371000
  let phi1 := lat1 * Real.pi / 180
  let phi2 := lat2 * Real.pi / 180
  let dPhi := (lat2 - lat1) * Real.pi / 180
  let dLam := (lon2 - lon1) * Real.pi / 180
  let a := Real.sin (dPhi / 2) * Real.sin (dPhi / 2) +
    Real.cos phi1 * Real.cos phi2 *
      (Real.sin (dLam / 2) * Real.sin (dLam / 2))
  let c := 2 * atan2 (Real.sqrt a) (Real.sqrt (1 - a))
  R * c

/-- Community-responder payload fields (part_002): coordinates are nullable,
the rating is a float in [0,5] and `response_count` counts rating events. -/
structure ResponderData where
  name : String
  latitude : Option ℝ
  longitude : Option ℝ
  is_verified : Bool
  is_available : Bool
  rating : ℝ
  response_count : Nat

open Classical in
/-- JavaScript truthiness of a nullable number, as the filter
`r => r.latitude && r.longitude` applies it: null is falsy and so is the
number 0. -/
noncomputable def truthy (x : Option ℝ) : Bool :=
  match x with
  | none => false
  | some v => if v = 0 then false else true

/-- The numeric value of a coordinate that passed the truthiness filter. -/
def coordVal (x : Option ℝ) : ℝ := x.getD 0

/-- A responder as `CommunityManager.getNearbyResponders` returns it: the
record spread together with the computed `distance` in kilometers. -/
structure NearbyResponder where
  responder : DBRecord ResponderData
  distance : ℝ

open Classical in
/-- Embeds `CommunityManager.getNearbyResponders` (part_002 lines 40-70): read all
responders, keep those whose latitude and longitude are truthy, attach the
haversine distance to the query point converted to kilometers, keep those
within `radiusKm`, and sort ascending by distance (JavaScript sort is stable,
modelled by `mergeSort`). -/
noncomputable def getNearbyResponders (s : Store ResponderData)
    (latitude longitude radiusKm : ℝ) : List NearbyResponder :=
  let respondersWithLocation :=
    s.getAll.filter (fun r => truthy r.data.latitude && truthy r.data.longitude)
  let nearby :=
    (respondersWithLocation.map (fun r =>
      { responder := r
        distance := calculateDistance latitude longitude
          (coordVal r.data.latitude) (coordVal r.data.longitude) / 1000
        : NearbyResponder })).filter
      (fun nr => if nr.distance ≤ radiusKm then true else false)
  nearby.mergeSort (fun a b => if a.distance ≤ b.distance then true else false)

open Classical in
/-- Embeds `CommunityManager.rateResponder` (part_002 lines 118-145): a rating outside
[0,5] is rejected before the store is read; a missing responder is an error;
otherwise the running-average update `(rating * count + new) / (count + 1)` is
applied, the count is incremented, and the record is written back with `put`.
On an error the caller's store is untouched. Returns the new store and the
updated record. -/
noncomputable def rateResponder (s : Store ResponderData) (responderId : Nat)
    (rating : ℝ) :
    Except DBError (Store ResponderData × DBRecord ResponderData) :=
  if rating < 0 ∨ 5 < rating then .error .invalidArgument
  else
    match s.get responderId with
    | none => .error .notFound
    | some r =>
      let totalRating : ℝ := r.data.rating * r.data.response_count + rating
      let d1 : ResponderData :=
        { r.data with
          response_count := r.data.response_count + 1
          rating := totalRating / (r.data.response_count + 1) }
      let r1 : DBRecord ResponderData := { r with data := d1 }
      .ok ((s.put r1).1, r1)

/-- Safe-zone payload fields (part_003 lines 184-192): the `radius` is in
meters. -/
structure SafeZoneData where
  user_id : Nat
  name : String
  latitude : ℝ
  longitude : ℝ
  radius : ℝ
  is_active : Bool

open Classical in
/-- The loop of `LocationManager.isInSafeZone` (part_003 lines 154-165): scan
the active zones and return true at the first one whose distance to the point
is at most its radius. -/
noncomputable def inAnyActiveZone (latitude longitude : ℝ) :
    List (DBRecord SafeZoneData) → Bool
  | [] => false
  | z :: rest =>
    if calculateDistance latitude longitude z.data.latitude z.data.longitude ≤
        z.data.radius then true
    else inAnyActiveZone latitude longitude rest

/-- Embeds `LocationManager.isInSafeZone` (part_003 lines 144-172): false with no
logged-in user; otherwise read the user's zones from the `user_id` index, keep
the active ones, and scan them for one containing the point. -/
noncomputable def isInSafeZone (currentUser : Option Nat)
    (s : Store SafeZoneData) (latitude longitude : ℝ) : Bool :=
  match currentUser with
  | none => false
  | some uid =>
    let safeZones := s.getByIndex (fun z => z.user_id) uid
    let activeSafeZones := safeZones.filter (fun z => z.data.is_active)
    inAnyActiveZone latitude longitude activeSafeZones

/-- Fixture: the users store of a session holding one registered user with
id 1. -/
def c1Users : Store UserData :=
  ⟨[(1, ⟨some 1, some 0, ⟨some "9990001111", "Asha", none, false⟩⟩)], 2⟩

/-- Fixture: three emergency contacts, all referencing user 1. -/
def c1Contacts : Store ContactData :=
  ⟨[(1, ⟨some 1, some 0, ⟨1, "Maa", "9990002222", 1⟩⟩),
    (2, ⟨some 2, some 0, ⟨1, "Papa", "9990003333", 2⟩⟩),
    (3, ⟨some 3, some 0, ⟨1, "Didi", "9990004444", 3⟩⟩)], 4⟩

/-- Fixture: two evidence records, both referencing user 1. -/
def c1Evidence : Store EvidenceData :=
  ⟨[(1, ⟨some 1, some 0, ⟨1, "photo"⟩⟩),
    (2, ⟨some 2, some 0, ⟨1, "audio"⟩⟩)], 3⟩

/-- Fixture: application state with user 1 logged in, owning three contacts
and two evidence records. -/
def c1State : AppState :=
  ⟨c1Users, c1Contacts, c1Evidence,
   some ⟨some 1, some 0, ⟨some "9990001111", "Asha", none, false⟩⟩⟩

/-- Fixture: SOS state with user 1 logged in and an empty alerts store. -/
def sosStart : SOSState := ⟨⟨[], 0⟩, none, some 1⟩

/-- Fixture: a responder at the origin (0, 0). -/
def equatorResponder : DBRecord ResponderData :=
  ⟨some 1, some 0, ⟨"R1", some 0, some 0, true, true, 5, 0⟩⟩

/-- Fixture: a responder at (0, 0.1°), about 11.1 km from the origin. -/
noncomputable def offsetResponder : DBRecord ResponderData :=
  ⟨some 2, some 0, ⟨"R2", some 0, some (1 / 10), true, true, 5, 0⟩⟩

/-- Fixture: the responders store holding the two scenario responders. -/
noncomputable def equatorStore : Store ResponderData :=
  ⟨[(1, equatorResponder), (2, offsetResponder)], 3⟩

/-- Fixture: a responder with rating 4.0 after 2 rating events. -/
def ratedResponder : DBRecord ResponderData :=
  ⟨some 1, some 0, ⟨"R", none, none, true, true, 4, 2⟩⟩

/-- Fixture: the responders store holding the rating-scenario responder. -/
def ratingStore : Store ResponderData := ⟨[(1, ratedResponder)], 2⟩

/-- Fixture: an active safe zone of user 1 at (10, 10) with radius 50 m. -/
def homeZone : DBRecord SafeZoneData :=
  ⟨some 1, some 0, ⟨1, "Home", 10, 10, 50, true⟩⟩

/-- Fixture: the safe-zones store holding the scenario zone. -/
def zoneStore : Store SafeZoneData := ⟨[(1, homeZone)], 2⟩

/-- Fixture: one location-history record of user 1. -/
def locA : DBRecord LocationData := ⟨some 1, some 0, ⟨1, 0, 0, 100⟩⟩

/-- Fixture: the location-history store holding one record of user 1. -/
def locStore : Store LocationData := ⟨[(1, locA)], 2⟩

/-- Finding a key in rows that were filtered to exclude it yields nothing. -/
theorem find?_filter_ne {β : Type} (rows : List (Nat × β)) (k : Nat) :
    (rows.filter (fun p => !decide (p.1 = k))).find?
      (fun p => decide (p.1 = k)) = none := by
  rw [List.find?_eq_none]
  intro x hx
  rcases List.mem_filter.mp hx with ⟨-, h2⟩
  simpa using h2

/-- Finding a key known absent from the prefix finds the appended row. -/
theorem find?_key_append {β : Type} (rows : List (Nat × β)) (k : Nat) (v : β)
    (h : rows.any (fun p => decide (p.1 = k)) = false) :
    (rows ++ [(k, v)]).find? (fun p => decide (p.1 = k)) = some (k, v) := by
  rw [List.find?_append]
  have h1 : rows.find? (fun p => decide (p.1 = k)) = none := by
    rw [List.find?_eq_none]
    intro x hx
    have := (List.any_eq_false.mp h) x hx
    simpa using this
  simp [h1, List.find?]

/-- C3: one pass of the offline-queue drain attempts exactly the queued
requests, in enqueue (FIFO) order — the i-th result is the outcome of the i-th
queued request — and leaves the queue empty no matter how many attempts
failed; in particular, replaying three requests whose second fails still
clears the queue. -/
theorem processOfflineQueue_fifo_and_clears :
    (∀ (send : QueuedRequest → Bool) (queue : List QueuedRequest),
      (processOfflineQueue send queue).attempted = queue ∧
      (processOfflineQueue send queue).results = queue.map send ∧
      (processOfflineQueue send queue).finalQueue = []) ∧
    (processOfflineQueue (fun q => !decide (q.endpoint = "/e2"))
      [⟨"/e1", "o"⟩, ⟨"/e2", "o"⟩, ⟨"/e3", "o"⟩]).finalQueue = [] := by
  constructor
  · intro send queue
    cases queue with
    | nil => simp [processOfflineQueue]
    | cons q qs => simp [processOfflineQueue]
  · rfl

/-- C9: the engine's delete is idempotent — after one delete the id reads back
absent, and deleting again produces the identical store (the operation is
total, so deleting a missing id is never an error). -/
theorem delete_idempotent_and_absent :
    ∀ (α : Type) (s : Store α) (k : Nat),
      (s.delete k).get k = none ∧ (s.delete k).delete k = s.delete k := by
  intro α s k
  constructor
  · simp only [Store.delete, Store.get]
    rw [find?_filter_ne]
    rfl
  · simp only [Store.delete, List.filter_filter]
    simp

/-- Unfolding equation for `Store.add` with the creation stamp and assigned
key written out. -/
theorem Store.add_eq {α κ : Type} [DecidableEq κ] (ukey : α → Option κ)
    (now : Nat) (s : Store α) (r : DBRecord α) :
    Store.add ukey now s r =
      if s.rows.any (fun p => decide (p.1 = r.id.getD s.nextKey)) then
        .error .constraintViolation
      else
        match ukey r.data with
        | some v =>
          if s.rows.any (fun p => decide (ukey p.2.data = some v)) then
            .error .constraintViolation
          else
            .ok ({ rows := s.rows ++ [(r.id.getD s.nextKey,
                     { id := some (r.id.getD s.nextKey),
                       created_at :=
                         if r.created_at.isNone then some now else r.created_at,
                       data := r.data })],
                   nextKey := max s.nextKey (r.id.getD s.nextKey + 1) },
                 r.id.getD s.nextKey)
        | none =>
          .ok ({ rows := s.rows ++ [(r.id.getD s.nextKey,
                   { id := some (r.id.getD s.nextKey),
                     created_at :=
                       if r.created_at.isNone then some now else r.created_at,
                     data := r.data })],
                 nextKey := max s.nextKey (r.id.getD s.nextKey + 1) },
               r.id.getD s.nextKey) := by
  obtain ⟨rid, rca, rdata⟩ := r
  cases rca <;> rfl

/-- What a successful `Store.add` did: the new row is appended, its key was
free, and the generator passed the key. -/
theorem Store.add_ok_elim {α κ : Type} [DecidableEq κ] {ukey : α → Option κ}
    {now : Nat} {s s1 : Store α} {r : DBRecord α} {k : Nat}
    (h : Store.add ukey now s r = .ok (s1, k)) :
    k = r.id.getD s.nextKey ∧
    s.rows.any (fun p => decide (p.1 = k)) = false ∧
    s1.rows = s.rows ++ [(k,
      { id := some k,
        created_at := if r.created_at.isNone then some now else r.created_at,
        data := r.data })] ∧
    s1.nextKey = max s.nextKey (k + 1) := by
  rw [Store.add_eq] at h
  by_cases hany : s.rows.any (fun p => decide (p.1 = r.id.getD s.nextKey)) = true
  · rw [if_pos hany] at h
    exact absurd h (by simp)
  · have hany2 : s.rows.any (fun p => decide (p.1 = r.id.getD s.nextKey)) = false :=
      Bool.not_eq_true _ ▸ Bool.of_not_eq_true hany
    rw [if_neg (by simp [hany2])] at h
    rcases hu : ukey r.data with _ | v <;> rw [hu] at h <;> dsimp only at h
    · rw [Except.ok.injEq, Prod.mk.injEq] at h
      obtain ⟨hs1, hk⟩ := h
      subst hk
      exact ⟨rfl, hany2, by rw [← hs1], by rw [← hs1]⟩
    · by_cases hany3 :
        s.rows.any (fun p => decide (ukey p.2.data = some v)) = true
      · rw [if_pos hany3] at h
        exact absurd h (by simp)
      · rw [if_neg hany3] at h
        rw [Except.ok.injEq, Prod.mk.injEq] at h
        obtain ⟨hs1, hk⟩ := h
        subst hk
        exact ⟨rfl, hany2, by rw [← hs1], by rw [← hs1]⟩

/-- Inserting a record whose unique-index value already occurs in the store is
rejected with a constraint violation. -/
theorem Store.add_dup_unique_error {α κ : Type} [DecidableEq κ]
    (ukey : α → Option κ) (now : Nat) (s : Store α) (r : DBRecord α) (v : κ)
    (hex : ∃ q ∈ s.rows, ukey q.2.data = some v) (hr : ukey r.data = some v) :
    Store.add ukey now s r = .error .constraintViolation := by
  rw [Store.add_eq]
  by_cases hany : s.rows.any (fun p => decide (p.1 = r.id.getD s.nextKey)) = true
  · rw [if_pos hany]
  · rw [if_neg hany, hr]
    obtain ⟨q, hq, hqv⟩ := hex
    dsimp only
    rw [if_pos (List.any_eq_true.mpr ⟨q, hq, by simp [hqv]⟩)]

/-- Inserting a record with no preset key and a null unique-index value into a
well-formed store always succeeds, appending at the generator key. -/
theorem Store.add_fresh_none_ok {α κ : Type} [DecidableEq κ]
    (ukey : α → Option κ) (now : Nat) (s : Store α) (r : DBRecord α)
    (hwf : s.WF) (hid : r.id = none) (hu : ukey r.data = none) :
    Store.add ukey now s r =
      .ok ({ rows := s.rows ++ [(s.nextKey,
               { id := some s.nextKey,
                 created_at :=
                   if r.created_at.isNone then some now else r.created_at,
                 data := r.data })],
             nextKey := s.nextKey + 1 }, s.nextKey) := by
  rw [Store.add_eq, hid, hu]
  have hany : s.rows.any (fun p => decide (p.1 = (none : Option Nat).getD s.nextKey)) = false := by
    rw [List.any_eq_false]
    intro p hp
    have := hwf p hp
    simp only [Option.getD]
    intro hc
    exact absurd (of_decide_eq_true hc) (Nat.ne_of_lt this)
  rw [if_neg (by rw [hany]; exact Bool.false_ne_true)]
  dsimp only [Option.getD]
  rw [Nat.max_eq_right (Nat.le_succ _)]

/-- Appending a fresh row to a well-formed store keeps it well-formed. -/
theorem Store.wf_append_fresh {α : Type} (s : Store α) (v : DBRecord α)
    (hwf : s.WF) :
    Store.WF { rows := s.rows ++ [(s.nextKey, v)], nextKey := s.nextKey + 1 } := by
  intro p hp
  rcases List.mem_append.mp hp with hp1 | hp2
  · exact Nat.lt_succ_of_lt (hwf p hp1)
  · simp only [List.mem_singleton] at hp2
    subst hp2
    exact Nat.lt_succ_self _

/-- C8: a record successfully inserted by the engine reads back under the
returned id with every payload field equal to the input, the engine-assigned
id filled in, and `created_at` stamped with the current instant exactly when
the input lacked one. A failed insert returns an error and no store, so the
caller's store is untouched. -/
theorem insert_then_get_roundtrip {α κ : Type} [DecidableEq κ]
    (ukey : α → Option κ) (now : Nat) (s s1 : Store α) (r : DBRecord α)
    (k : Nat) (h : Store.add ukey now s r = .ok (s1, k)) :
    s1.get k = some
      { id := some k,
        created_at := if r.created_at.isNone then some now else r.created_at,
        data := r.data } := by
  obtain ⟨-, hany, hrows, -⟩ := Store.add_ok_elim h
  simp only [Store.get, hrows]
  rw [find?_key_append _ _ _ hany]
  rfl

/-- Witness for C8 at a concrete input: inserting the payload 7 with no
timestamp into an empty store and reading key 0 back. -/
theorem insert_then_get_roundtrip_witness :
    Store.add (fun _ : Nat => (none : Option Nat)) 5 (⟨[], 0⟩ : Store Nat)
      ⟨none, none, 7⟩ = .ok (⟨[(0, ⟨some 0, some 5, 7⟩)], 1⟩, 0) ∧
    Store.get (⟨[(0, ⟨some 0, some 5, 7⟩)], 1⟩ : Store Nat) 0 = some
      { id := some 0,
        created_at := if (⟨none, none, 7⟩ : DBRecord Nat).created_at.isNone
          then some 5 else (⟨none, none, 7⟩ : DBRecord Nat).created_at,
        data := (⟨none, none, 7⟩ : DBRecord Nat).data } :=
  ⟨rfl, insert_then_get_roundtrip (fun _ : Nat => (none : Option Nat)) 5
    ⟨[], 0⟩ ⟨[(0, ⟨some 0, some 5, 7⟩)], 1⟩ ⟨none, none, 7⟩ 0 rfl⟩

/-- C7: on the users store, whose `phone_number` index is unique, a second
insert carrying the same non-null phone number as an already inserted user is
rejected with a constraint violation (the failing insert returns no store, so
the store is unchanged); and inserting two users with null phone numbers — as
`continueAsGuest` does — succeeds both times, since a null value never enters
the unique index. -/
theorem phone_unique_and_null_bypass :
    (∀ (s s1 : Store UserData) (r1 r2 : DBRecord UserData) (p : String)
       (now1 now2 k1 : Nat),
      r1.data.phone_number = some p →
      r2.data.phone_number = some p →
      Store.add (fun u => u.phone_number) now1 s r1 = .ok (s1, k1) →
      Store.add (fun u => u.phone_number) now2 s1 r2 =
        .error .constraintViolation) ∧
    (∀ (s : Store UserData) (r1 r2 : DBRecord UserData) (now1 now2 : Nat),
      s.WF → r1.id = none → r2.id = none →
      r1.data.phone_number = none → r2.data.phone_number = none →
      ∃ s1 k1 s2 k2,
        Store.add (fun u => u.phone_number) now1 s r1 = .ok (s1, k1) ∧
        Store.add (fun u => u.phone_number) now2 s1 r2 = .ok (s2, k2)) := by
  constructor
  · intro s s1 r1 r2 p now1 now2 k1 h1 h2 hok
    obtain ⟨-, -, hrows, -⟩ := Store.add_ok_elim hok
    refine Store.add_dup_unique_error _ _ _ _ p ?_ h2
    refine ⟨(k1,
      { id := some k1
        created_at := if r1.created_at.isNone then some now1 else r1.created_at
        data := r1.data }), ?_, h1⟩
    rw [hrows]
    exact List.mem_append_right _ (List.mem_singleton.mpr rfl)
  · intro s r1 r2 now1 now2 hwf hid1 hid2 hp1 hp2
    have h1 := Store.add_fresh_none_ok (fun u => u.phone_number) now1 s r1
      hwf hid1 hp1
    have hwf1 := Store.wf_append_fresh s
      { id := some s.nextKey
        created_at := if r1.created_at.isNone then some now1 else r1.created_at
        data := r1.data } hwf
    have h2 := Store.add_fresh_none_ok (fun u => u.phone_number) now2 _ r2
      hwf1 hid2 hp2
    exact ⟨_, _, _, _, h1, h2⟩

/-- Witness for C7 at concrete inputs: registering phone 9990001111 twice into
an empty store — the second insert is rejected — and two guest inserts with
null phones — both succeed. -/
theorem phone_unique_and_null_bypass_witness :
    ((⟨none, some 0, ⟨some "9990001111", "A", none, false⟩⟩ :
        DBRecord UserData).data.phone_number = some "9990001111" ∧
      Store.add (fun u => u.phone_number) 0 (⟨[], 0⟩ : Store UserData)
        ⟨none, some 0, ⟨some "9990001111", "A", none, false⟩⟩ =
        .ok (⟨[(0, ⟨some 0, some 0,
          ⟨some "9990001111", "A", none, false⟩⟩)], 1⟩, 0) ∧
      Store.add (fun u => u.phone_number) 1
        (⟨[(0, ⟨some 0, some 0, ⟨some "9990001111", "A", none, false⟩⟩)], 1⟩ :
          Store UserData)
        ⟨none, some 0, ⟨some "9990001111", "B", none, false⟩⟩ =
        .error .constraintViolation) ∧
    ((⟨[], 0⟩ : Store UserData).WF ∧
      ∃ s1 k1 s2 k2,
        Store.add (fun u => u.phone_number) 2 (⟨[], 0⟩ : Store UserData)
          ⟨none, none, ⟨none, "Guest User", none, true⟩⟩ = .ok (s1, k1) ∧
        Store.add (fun u => u.phone_number) 3 s1
          ⟨none, none, ⟨none, "Guest User", none, true⟩⟩ = .ok (s2, k2)) :=
  ⟨⟨rfl, rfl,
    phone_unique_and_null_bypass.1 ⟨[], 0⟩
      ⟨[(0, ⟨some 0, some 0, ⟨some "9990001111", "A", none, false⟩⟩)], 1⟩
      ⟨none, some 0, ⟨some "9990001111", "A", none, false⟩⟩
      ⟨none, some 0, ⟨some "9990001111", "B", none, false⟩⟩
      "9990001111" 0 1 0 rfl rfl rfl⟩,
   ⟨by decide,
    phone_unique_and_null_bypass.2 ⟨[], 0⟩
      ⟨none, none, ⟨none, "Guest User", none, true⟩⟩
      ⟨none, none, ⟨none, "Guest User", none, true⟩⟩
      2 3 (by decide) rfl rfl rfl rfl⟩⟩

/-- C1 (the code evaluated at the failing input): deleting the account of
user 1, who owns three emergency contacts and two evidence records, removes
only the users row — all three contacts and both evidence records still
reference user 1 afterwards, because `deleteAccount` issues a single delete
against the users store and IndexedDB performs no cascade. -/
theorem deleteAccount_leaves_scoped_records :
    (deleteAccount true c1State).2 = true ∧
    (deleteAccount true c1State).1.users.get 1 = none ∧
    (referencing (deleteAccount true c1State).1.contacts
      (fun c => c.user_id) 1).length = 3 ∧
    (referencing (deleteAccount true c1State).1.evidence
      (fun e => e.user_id) 1).length = 2 := by
  decide

/-- Replacing every row keyed `k0` leaves lookups for other keys unchanged. -/
theorem find?_map_replace_ne {β : Type} (rows : List (Nat × β)) (k0 k : Nat)
    (v : β) (h : k ≠ k0) :
    (rows.map (fun p => if p.1 = k0 then (k0, v) else p)).find?
      (fun p => decide (p.1 = k)) =
    rows.find? (fun p => decide (p.1 = k)) := by
  induction rows with
  | nil => rfl
  | cons q qs ih =>
    by_cases hq : q.1 = k0
    · have h1 : ¬((k0, v).1 = k) := fun hc => h hc.symm
      have h2 : ¬(q.1 = k) := by rw [hq]; exact fun hc => h hc.symm
      simp only [List.map_cons, if_pos hq]
      rw [List.find?_cons_of_neg _ (by simpa using h1),
        List.find?_cons_of_neg _ (by simpa using h2)]
      exact ih
    · simp only [List.map_cons, if_neg hq]
      by_cases hqk : q.1 = k
      · rw [List.find?_cons_of_pos _ (by simpa using hqk),
          List.find?_cons_of_pos _ (by simpa using hqk)]
      · rw [List.find?_cons_of_neg _ (by simpa using hqk),
          List.find?_cons_of_neg _ (by simpa using hqk)]
        exact ih

/-- Replacing every row keyed `k0` makes the lookup for `k0` find the
replacement, provided some row carried that key. -/
theorem find?_map_replace_eq {β : Type} (rows : List (Nat × β)) (k0 : Nat)
    (v : β) (h : rows.any (fun p => decide (p.1 = k0)) = true) :
    (rows.map (fun p => if p.1 = k0 then (k0, v) else p)).find?
      (fun p => decide (p.1 = k0)) = some (k0, v) := by
  induction rows with
  | nil => simp at h
  | cons q qs ih =>
    by_cases hq : q.1 = k0
    · simp only [List.map_cons, if_pos hq]
      rw [List.find?_cons_of_pos _ (by simp)]
    · simp only [List.map_cons, if_neg hq]
      rw [List.find?_cons_of_neg _ (by simpa using hq)]
      refine ih ?_
      simp only [List.any_cons] at h
      rcases Bool.or_eq_true_iff.mp h with h1 | h1
      · exact absurd (of_decide_eq_true h1) hq
      · exact h1

/-- Reading a store whose rows end in one appended row either sees what the
prefix already held, or — exactly for the appended key, when the prefix lacks
it — the appended record. -/
theorem get_append_cases {α : Type} (rows : List (Nat × DBRecord α))
    (n q : Nat) (v : DBRecord α) (k : Nat) :
    Store.get ⟨rows ++ [(q, v)], n⟩ k = Store.get ⟨rows, n⟩ k ∨
    (Store.get ⟨rows ++ [(q, v)], n⟩ k = some v ∧
      Store.get ⟨rows, n⟩ k = none ∧ k = q) := by
  simp only [Store.get, List.find?_append]
  rcases hf : rows.find? (fun p => decide (p.1 = k)) with _ | p
  · rw [hf]
    by_cases hk : q = k
    · right
      refine ⟨?_, rfl, hk.symm⟩
      rw [List.find?_cons_of_pos _ (by simpa using hk)]
      rfl
    · left
      rw [List.find?_cons_of_neg _ (by simpa using hk)]
      rfl
  · rw [hf]
    left
    rfl

/-- Reading any key after a `put` either sees what was there before or a
record carrying the written payload. -/
theorem Store.get_put_cases {α : Type} (s : Store α) (r : DBRecord α)
    (k : Nat) :
    ((s.put r).1).get k = s.get k ∨
    ∃ v : DBRecord α, ((s.put r).1).get k = some v ∧ v.data = r.data := by
  rcases hid : r.id with _ | k0
  · simp only [Store.put, hid]
    rcases get_append_cases s.rows s.nextKey s.nextKey
        { r with id := some s.nextKey } k with h | ⟨h, -, -⟩
    · left
      exact h
    · right
      exact ⟨{ r with id := some s.nextKey }, h, rfl⟩
  · simp only [Store.put, hid]
    by_cases hany : s.rows.any (fun p => decide (p.1 = k0)) = true
    · rw [if_pos hany]
      dsimp only
      by_cases hk : k = k0
      · subst hk
        right
        refine ⟨r, ?_, rfl⟩
        simp only [Store.get]
        rw [find?_map_replace_eq s.rows k r hany]
        rfl
      · left
        simp only [Store.get]
        rw [find?_map_replace_ne s.rows k0 k r hk]
    · rw [if_neg hany]
      dsimp only
      rcases get_append_cases s.rows s.nextKey k0 r k with h | ⟨h, -, -⟩
      · left
        exact h
      · right
        exact ⟨r, h, rfl⟩

/-- One SOS operation either leaves an alert's stored status unchanged, sets
it to cancelled or resolved, or creates it — a creation always carries status
active. -/
theorem sos_step_cases (st : SOSState) (op : SOSOp) (k : Nat) :
    alertStatus (applySOSOp st op) k = alertStatus st k ∨
    alertStatus (applySOSOp st op) k = some SOSStatus.cancelled ∨
    alertStatus (applySOSOp st op) k = some SOSStatus.resolved ∨
    (alertStatus st k = none ∧
      alertStatus (applySOSOp st op) k = some SOSStatus.active) := by
  cases op with
  | trigger now =>
    simp only [applySOSOp, triggerSOS]
    rcases st.currentUser with _ | uid
    · left; rfl
    · dsimp only
      cases hadd : st.alerts.add (fun _ => (none : Option Nat)) now
          ⟨none, none, ⟨uid, now, .active, none, ""⟩⟩ with
      | error e => left; rfl
      | ok v =>
        obtain ⟨s1, aid⟩ := v
        obtain ⟨-, hany, hrows, -⟩ := Store.add_ok_elim hadd
        simp only [alertStatus, Store.get, hrows, List.find?_append]
        have hf : st.alerts.rows.find? (fun p => decide (p.1 = aid)) = none := by
          rw [List.find?_eq_none]
          intro x hx
          have := (List.any_eq_false.mp hany) x hx
          simpa using this
        by_cases hk : k = aid
        · subst hk
          right; right; right
          rw [hf]
          constructor
          · rfl
          · rw [List.find?_cons_of_pos _ (by simp)]
            rfl
        · left
          rcases hfk : st.alerts.rows.find? (fun p => decide (p.1 = k)) with _ | p
          · rw [hfk, List.find?_cons_of_neg _ (by simpa using fun hc => hk hc.symm)]
            rfl
          · rw [hfk]
            rfl
  | cancel now =>
    simp only [applySOSOp, cancelSOS]
    rcases st.currentAlert with _ | aid
    · left; rfl
    · dsimp only
      cases hget : st.alerts.get aid with
      | none => left; rfl
      | some a =>
        dsimp only
        rcases Store.get_put_cases st.alerts
            { a with data :=
              { a.data with
                status := SOSStatus.cancelled
                resolved_at := some now } } k with h | ⟨v, hv, hd⟩
        · left
          simpa [alertStatus] using congrArg (Option.map (fun r => r.data.status)) h
        · right; left
          simp [alertStatus, hv, hd]
  | resolve aid notes now =>
    simp only [applySOSOp, resolveSOS]
    cases hget : st.alerts.get aid with
    | none => left; rfl
    | some a =>
      dsimp only
      rcases Store.get_put_cases st.alerts
          { a with data :=
            { a.data with
              status := SOSStatus.resolved
              resolved_at := some now
              notes := notes } } k
          with h | ⟨v, hv, hd⟩
      · left
        simpa [alertStatus] using congrArg (Option.map (fun r => r.data.status)) h
      · right; right; left
        simp [alertStatus, hv, hd]

/-- C4 as amended: every status change an SOS operation makes sets the status
to cancelled or resolved (a newly created alert starts active), and once an
alert is cancelled or resolved no sequence of operations ever returns it to
active; however — because `resolveSOS` never checks the current status — the
transitions cancelled→resolved and resolved→cancelled are reachable, which the
accompanying counterexample exhibits. -/
theorem sos_status_transitions :
    (∀ (st : SOSState) (op : SOSOp) (k : Nat),
      alertStatus (applySOSOp st op) k = alertStatus st k ∨
      alertStatus (applySOSOp st op) k = some SOSStatus.cancelled ∨
      alertStatus (applySOSOp st op) k = some SOSStatus.resolved ∨
      (alertStatus st k = none ∧
        alertStatus (applySOSOp st op) k = some SOSStatus.active)) ∧
    (∀ (ops : List SOSOp) (st : SOSState) (k : Nat),
      (alertStatus st k = some SOSStatus.cancelled ∨
        alertStatus st k = some SOSStatus.resolved) →
      alertStatus (applySOSOps st ops) k ≠ some SOSStatus.active) := by
  constructor
  · exact sos_step_cases
  · intro ops
    induction ops with
    | nil =>
      intro st k h
      simp only [applySOSOps, List.foldl_nil]
      rcases h with h | h <;> rw [h] <;> simp
    | cons op ops ih =>
      intro st k h
      have hstep := sos_step_cases st op k
      have hnext : alertStatus (applySOSOp st op) k = some SOSStatus.cancelled ∨
          alertStatus (applySOSOp st op) k = some SOSStatus.resolved := by
        rcases hstep with h1 | h1 | h1 | ⟨h1, -⟩
        · rw [h1]; exact h
        · left; exact h1
        · right; exact h1
        · rcases h with h2 | h2 <;> rw [h2] at h1 <;> cases h1
      simpa only [applySOSOps, List.foldl_cons] using ih (applySOSOp st op) k hnext

/-- Witness for C4 at a concrete input: with alert 0 cancelled, resolving it
never yields the status active. -/
theorem sos_status_transitions_witness :
    (alertStatus (applySOSOps sosStart [.trigger 10, .cancel 11]) 0 =
        some SOSStatus.cancelled ∨
      alertStatus (applySOSOps sosStart [.trigger 10, .cancel 11]) 0 =
        some SOSStatus.resolved) ∧
    alertStatus (applySOSOps (applySOSOps sosStart [.trigger 10, .cancel 11])
      [.resolve 0 "" 12]) 0 ≠ some SOSStatus.active :=
  ⟨Or.inl (by decide),
   sos_status_transitions.2 [.resolve 0 "" 12]
     (applySOSOps sosStart [.trigger 10, .cancel 11]) 0
     (Or.inl (by decide))⟩

/-- C4 counterexample for the claim as stated: starting from a logged-in
session, trigger then cancel leaves alert 0 cancelled, and a subsequent
`resolveSOS` on that same alert moves it out of cancelled into resolved — a
transition the claim rules out. -/
theorem sos_cancelled_to_resolved :
    alertStatus (applySOSOps sosStart [.trigger 10, .cancel 11]) 0 =
      some SOSStatus.cancelled ∧
    (resolveSOS (applySOSOps sosStart [.trigger 10, .cancel 11]) 0 "" 12).2 =
      true ∧
    alertStatus
      (resolveSOS (applySOSOps sosStart [.trigger 10, .cancel 11]) 0 "" 12).1
      0 = some SOSStatus.resolved := by
  decide

/-- C10 as amended: for a logged-in user the location-history read returns
only that user's records, sorted descending by timestamp (newest first), and —
when the limit is nonzero — cut to at most `limit` entries; the result is an
initial segment of a reordering of the user's records, and the default limit
is 100. A zero limit is falsy in the source's truthiness test and disables
truncation, which the accompanying counterexample exhibits. -/
theorem location_history_sorted_truncated :
    ∀ (uid : Nat) (s : Store LocationData) (limit : Nat),
      (getLocationHistory (some uid) s limit).Pairwise
        (fun a b => b.data.timestamp ≤ a.data.timestamp) ∧
      (∀ r ∈ getLocationHistory (some uid) s limit, r.data.user_id = uid) ∧
      (limit ≠ 0 → (getLocationHistory (some uid) s limit).length ≤ limit) ∧
      (∃ rest, (getLocationHistory (some uid) s limit ++ rest).Perm
        (s.getByIndex (fun l => l.user_id) uid)) ∧
      (getLocationHistoryDefault (some uid) s).length ≤ 100 := by
  intro uid s limit
  have hsorted : ∀ (m : Nat),
      (getLocationHistory (some uid) s m).Pairwise
        (fun a b => b.data.timestamp ≤ a.data.timestamp) := by
    intro m
    have hp : ((s.getByIndex (fun l => l.user_id) uid).mergeSort
        (fun a b => decide (b.data.timestamp ≤ a.data.timestamp))).Pairwise
        (fun a b => decide (b.data.timestamp ≤ a.data.timestamp) = true) := by
      refine List.sorted_mergeSort ?_ ?_ _
      · intro a b c hab hbc
        simp only [decide_eq_true_eq] at hab hbc ⊢
        exact le_trans hbc hab
      · intro a b
        rcases Nat.le_total b.data.timestamp a.data.timestamp with h | h
        · simp [h]
        · simp [h]
    have hp2 := hp.imp (fun h => of_decide_eq_true h)
    simp only [getLocationHistory]
    by_cases hm : m ≠ 0
    · rw [if_pos hm]
      exact hp2.sublist (List.take_sublist _ _)
    · rw [if_neg hm]
      exact hp2
  refine ⟨hsorted limit, ?_, ?_, ?_, ?_⟩
  · intro r hr
    have hr2 : r ∈ (s.getByIndex (fun l => l.user_id) uid).mergeSort
        (fun a b => decide (b.data.timestamp ≤ a.data.timestamp)) := by
      simp only [getLocationHistory] at hr
      by_cases hm : limit ≠ 0
      · rw [if_pos hm] at hr
        exact List.mem_of_mem_take hr
      · rw [if_neg hm] at hr
        exact hr
    have hr3 := List.mem_mergeSort.mp hr2
    simp only [Store.getByIndex, List.mem_filter] at hr3
    exact of_decide_eq_true hr3.2
  · intro hm
    simp only [getLocationHistory]
    rw [if_pos hm]
    exact List.length_take_le _ _
  · simp only [getLocationHistory]
    by_cases hm : limit ≠ 0
    · rw [if_pos hm]
      refine ⟨((s.getByIndex (fun l => l.user_id) uid).mergeSort
        (fun a b => decide (b.data.timestamp ≤ a.data.timestamp))).drop limit, ?_⟩
      rw [List.take_append_drop]
      exact List.mergeSort_perm _ _
    · rw [if_neg hm]
      refine ⟨[], ?_⟩
      rw [List.append_nil]
      exact List.mergeSort_perm _ _
  · simp only [getLocationHistoryDefault, getLocationHistory]
    rw [if_pos (by decide : (100 : Nat) ≠ 0)]
    exact List.length_take_le _ _

/-- Witness for C10 at a concrete input: with limit 1 the read returns at most
one entry. -/
theorem location_history_sorted_truncated_witness :
    (1 : Nat) ≠ 0 ∧ (getLocationHistory (some 1) locStore 1).length ≤ 1 :=
  ⟨by decide,
   (location_history_sorted_truncated 1 locStore 1).2.2.1 (by decide)⟩

/-- C10 counterexample for the claim as stated: with a zero limit the source's
truthiness test `if (limit)` skips the slice, so the read is not truncated to
at most `limit` entries — one record of user 1 comes back in full. -/
theorem location_history_zero_limit_not_truncated :
    (getLocationHistory (some 1) locStore 0).length = 1 ∧
    ¬((getLocationHistory (some 1) locStore 0).length ≤ 0) := by
  have h : getLocationHistory (some 1) locStore 0 = [locA] := by
    simp [getLocationHistory, Store.getByIndex, locStore, locA]
  rw [h]
  simp

/-- C5: rating a responder with a value outside [0,5] fails with an
invalid-argument error before the store is read, leaving it untouched; a value
in [0,5] replaces the rating by the running average
`(rating * count + value) / (count + 1)` and increments the count by one, and
the updated record is what the store then holds; in particular a responder
with rating 4.0 and count 2 rated 5 ends with rating 13/3 = 4.333... and
count 3. -/
theorem rateResponder_running_average :
    (∀ (s : Store ResponderData) (rid : Nat) (v : ℝ),
      (v < 0 ∨ 5 < v) →
      rateResponder s rid v = .error .invalidArgument) ∧
    (∀ (s : Store ResponderData) (rid : Nat) (v : ℝ)
       (r : DBRecord ResponderData),
      0 ≤ v → v ≤ 5 → s.get rid = some r → r.id = some rid →
      ∃ s1 r1, rateResponder s rid v = .ok (s1, r1) ∧
        r1.data.rating = (r.data.rating * r.data.response_count + v) /
          (r.data.response_count + 1) ∧
        r1.data.response_count = r.data.response_count + 1 ∧
        s1.get rid = some r1) ∧
    (∃ s1 r1, rateResponder ratingStore 1 5 = .ok (s1, r1) ∧
      r1.data.rating = 13 / 3 ∧ r1.data.response_count = 3) := by
  have parta : ∀ (s : Store ResponderData) (rid : Nat) (v : ℝ),
      (v < 0 ∨ 5 < v) → rateResponder s rid v = .error .invalidArgument := by
    intro s rid v hv
    simp only [rateResponder]
    rw [if_pos hv]
  have partb : ∀ (s : Store ResponderData) (rid : Nat) (v : ℝ)
      (r : DBRecord ResponderData),
      0 ≤ v → v ≤ 5 → s.get rid = some r → r.id = some rid →
      ∃ s1 r1, rateResponder s rid v = .ok (s1, r1) ∧
        r1.data.rating = (r.data.rating * r.data.response_count + v) /
          (r.data.response_count + 1) ∧
        r1.data.response_count = r.data.response_count + 1 ∧
        s1.get rid = some r1 := by
    intro s rid v r h0 h5 hget hid
    have hnot : ¬(v < 0 ∨ 5 < v) := by
      rintro (h | h)
      · exact absurd h (not_lt.mpr h0)
      · exact absurd h (not_lt.mpr h5)
    simp only [rateResponder]
    rw [if_neg hnot, hget]
    dsimp only
    refine ⟨_, _, rfl, rfl, rfl, ?_⟩
    have hfind : ∃ q, s.rows.find? (fun p => decide (p.1 = rid)) = some q ∧
        q.2 = r := by
      simp only [Store.get] at hget
      rcases hf : s.rows.find? (fun p => decide (p.1 = rid)) with _ | q
      · rw [hf] at hget
        cases hget
      · rw [hf] at hget
        exact ⟨q, hf, by simpa using hget⟩
    obtain ⟨q, hq, hqr⟩ := hfind
    have hq0 := List.find?_some hq
    have hq1 : q.1 = rid := by simpa using hq0
    have hany : s.rows.any (fun p => decide (p.1 = rid)) = true :=
      List.any_eq_true.mpr ⟨q, List.mem_of_find?_eq_some hq, by simp [hq1]⟩
    simp only [Store.put, hid]
    rw [if_pos hany]
    dsimp only
    simp only [Store.get]
    rw [find?_map_replace_eq s.rows rid _ hany]
    rfl
  refine ⟨parta, partb, ?_⟩
  obtain ⟨s1, r1, hok, hrat, hcnt, -⟩ :=
    partb ratingStore 1 5 ratedResponder (by norm_num) (by norm_num) rfl rfl
  refine ⟨s1, r1, hok, ?_, ?_⟩
  · rw [hrat]
    show ((4 : ℝ) * (2 : Nat) + 5) / ((2 : Nat) + 1) = 13 / 3
    norm_num
  · rw [hcnt]
    rfl

/-- Witness for C5 at a concrete input: rating 6 is out of range and is
rejected with an invalid-argument error. -/
theorem rateResponder_running_average_witness :
    ((6 : ℝ) < 0 ∨ 5 < (6 : ℝ)) ∧
    rateResponder ratingStore 1 6 = .error .invalidArgument :=
  ⟨Or.inr (by norm_num),
   rateResponder_running_average.1 ratingStore 1 6 (Or.inr (by norm_num))⟩

/-- The haversine distance from a point to itself is zero. -/
theorem calculateDistance_self (lat lon : ℝ) :
    calculateDistance lat lon lat lon = 0 := by
  simp only [calculateDistance, sub_self, zero_mul, zero_div, Real.sin_zero,
    mul_zero, add_zero, Real.sqrt_zero, zero_add]
  rw [sub_zero, Real.sqrt_one]
  unfold atan2
  rw [if_pos (by norm_num : (0 : ℝ) < 1)]
  rw [zero_div, Real.arctan_zero]
  ring

/-- For two points on one meridian the haversine formula collapses to
`R` times the absolute latitude difference in radians, as long as that
difference stays below a half turn. -/
theorem calculateDistance_same_lon (lat1 lat2 lon : ℝ)
    (h : |lat2 - lat1| * Real.pi / 180 / 2 < Real.pi / 2) :
    calculateDistance lat1 lon lat2 lon =
      6371000 * (|lat2 - lat1| * Real.pi / 180) := by
  have hpi := Real.pi_pos
  set t : ℝ := |lat2 - lat1| * Real.pi / 180 / 2 with ht
  have ht0 : 0 ≤ t := by
    rw [ht]
    positivity
  have habs : |(lat2 - lat1) * Real.pi / 180 / 2| = t := by
    rw [ht, abs_div, abs_div, abs_mul, abs_of_pos hpi]
    norm_num
  have hsin_sq : Real.sin ((lat2 - lat1) * Real.pi / 180 / 2) *
      Real.sin ((lat2 - lat1) * Real.pi / 180 / 2) =
      Real.sin t * Real.sin t := by
    rcases abs_cases ((lat2 - lat1) * Real.pi / 180 / 2) with ⟨he, -⟩ | ⟨he, -⟩
    · rw [← habs, he]
    · rw [← habs, he, Real.sin_neg]
      ring
  have hsin0 : 0 ≤ Real.sin t :=
    Real.sin_nonneg_of_nonneg_of_le_pi ht0 (by linarith)
  have hcos : 0 < Real.cos t :=
    Real.cos_pos_of_mem_Ioo ⟨by linarith, h⟩
  simp only [calculateDistance, sub_self, zero_mul, zero_div, Real.sin_zero,
    mul_zero, add_zero]
  rw [hsin_sq]
  have h2 : 1 - Real.sin t * Real.sin t = Real.cos t * Real.cos t := by
    have hid := Real.sin_sq_add_cos_sq t
    nlinarith [hid]
  rw [h2]
  have h1 : Real.sqrt (Real.sin t * Real.sin t) = Real.sin t := by
    rw [← pow_two]
    exact Real.sqrt_sq hsin0
  have h3 : Real.sqrt (Real.cos t * Real.cos t) = Real.cos t := by
    rw [← pow_two]
    exact Real.sqrt_sq hcos.le
  rw [h1, h3]
  have h4 : atan2 (Real.sin t) (Real.cos t) = t := by
    unfold atan2
    rw [if_pos hcos, ← Real.tan_eq_sin_div_cos]
    exact Real.arctan_tan (by linarith) h
  rw [h4, ht]
  ring

/-- The scenario point 0.0003° of latitude away is within 50 m of the zone
center: the arc is about 33.4 m. -/
theorem scenario_point_inside :
    calculateDistance 10.0003 10 10 10 ≤ 50 := by
  have habs : |(10 : ℝ) - 10.0003| = 0.0003 := by
    have he : (10 : ℝ) - 10.0003 = -0.0003 := by norm_num
    rw [he, abs_neg, abs_of_pos (by norm_num)]
  have hpi := Real.pi_pos
  rw [calculateDistance_same_lon 10.0003 10 10 (by rw [habs]; nlinarith), habs]
  nlinarith [Real.pi_le_four]

/-- The scenario point 0.01° of latitude away is farther than 50 m from the
zone center: the arc is about 1112 m. -/
theorem scenario_point_outside :
    ¬(calculateDistance 10.01 10 10 10 ≤ 50) := by
  have habs : |(10 : ℝ) - 10.01| = 0.01 := by
    have he : (10 : ℝ) - 10.01 = -0.01 := by norm_num
    rw [he, abs_neg, abs_of_pos (by norm_num)]
  have hpi := Real.pi_pos
  rw [calculateDistance_same_lon 10.01 10 10 (by rw [habs]; nlinarith), habs]
  push_neg
  nlinarith [Real.pi_gt_three]

/-- The safe-zone scan loop returns true exactly when some zone of the list
contains the point. -/
theorem inAnyActiveZone_iff (lat lng : ℝ)
    (zs : List (DBRecord SafeZoneData)) :
    inAnyActiveZone lat lng zs = true ↔
    ∃ z ∈ zs, calculateDistance lat lng z.data.latitude z.data.longitude ≤
      z.data.radius := by
  induction zs with
  | nil => simp [inAnyActiveZone]
  | cons z rest ih =>
    simp only [inAnyActiveZone]
    by_cases hz : calculateDistance lat lng z.data.latitude z.data.longitude ≤
        z.data.radius
    · rw [if_pos hz]
      simp only [true_iff]
      exact ⟨z, List.mem_cons_self z rest, hz⟩
    · rw [if_neg hz, ih]
      constructor
      · rintro ⟨w, hw, hp⟩
        exact ⟨w, List.mem_cons_of_mem z hw, hp⟩
      · rintro ⟨w, hw, hp⟩
        rcases List.mem_cons.mp hw with hw1 | hw1
        · subst hw1
          exact absurd hp hz
        · exact ⟨w, hw1, hp⟩

/-- C6: for a logged-in user the safe-zone membership check returns true
exactly when some active zone of that user holds the point within its radius
in meters; in particular, with one active zone of user 1 at (10, 10) and
radius 50 m, the point (10.0003, 10) is classified inside and the point
(10.01, 10) outside. -/
theorem isInSafeZone_characterization :
    (∀ (uid : Nat) (s : Store SafeZoneData) (lat lng : ℝ),
      isInSafeZone (some uid) s lat lng = true ↔
      ∃ z ∈ s.getAll, z.data.user_id = uid ∧ z.data.is_active = true ∧
        calculateDistance lat lng z.data.latitude z.data.longitude ≤
          z.data.radius) ∧
    isInSafeZone (some 1) zoneStore 10.0003 10 = true ∧
    isInSafeZone (some 1) zoneStore 10.01 10 = false := by
  have hchar : ∀ (uid : Nat) (s : Store SafeZoneData) (lat lng : ℝ),
      isInSafeZone (some uid) s lat lng = true ↔
      ∃ z ∈ s.getAll, z.data.user_id = uid ∧ z.data.is_active = true ∧
        calculateDistance lat lng z.data.latitude z.data.longitude ≤
          z.data.radius := by
    intro uid s lat lng
    simp only [isInSafeZone, Store.getByIndex, Store.getAll]
    rw [inAnyActiveZone_iff]
    constructor
    · rintro ⟨z, hz, hd⟩
      rcases List.mem_filter.mp hz with ⟨hz1, hz2⟩
      rcases List.mem_filter.mp hz1 with ⟨hz3, hz4⟩
      exact ⟨z, hz3, of_decide_eq_true hz4, hz2, hd⟩
    · rintro ⟨z, hz, hu, ha, hd⟩
      refine ⟨z, ?_, hd⟩
      exact List.mem_filter.mpr
        ⟨List.mem_filter.mpr ⟨hz, decide_eq_true hu⟩, ha⟩
  refine ⟨hchar, ?_, ?_⟩
  · rw [hchar]
    refine ⟨homeZone, ?_, rfl, rfl, ?_⟩
    · simp [Store.getAll, zoneStore]
    · show calculateDistance 10.0003 10 10 10 ≤ 50
      exact scenario_point_inside
  · rw [← Bool.not_eq_true, hchar]
    rintro ⟨z, hz, -, -, hd⟩
    have hz1 : z = homeZone := by
      simpa [Store.getAll, zoneStore] using hz
    subst hz1
    exact scenario_point_outside hd

/-- A boolean written as an if-then-else over a proposition is true exactly
when the proposition holds. -/
theorem itef_iff {p : Prop} [Decidable p] :
    (if p then true else false) = true ↔ p := by
  by_cases hp : p
  · simp [hp]
  · simp [hp]

/-- Both scenario responders sit at latitude 0, which the source's truthiness
filter `r.latitude && r.longitude` drops, so the nearby query at the origin
returns nothing. -/
theorem nearby_equator_empty : getNearbyResponders equatorStore 0 0 10 = [] := by
  simp [getNearbyResponders, Store.getAll, equatorStore, equatorResponder,
    offsetResponder, truthy]

/-- C2 counterexample for the claim as stated: the responder at (0, 0) has
non-null coordinates and haversine distance 0 km ≤ 10 km from the query
origin, so the claim predicts it is returned — but the source filters
responders with `r.latitude && r.longitude`, latitude 0 is falsy, and the
query returns the empty list. -/
theorem nearby_responders_origin_excluded :
    getNearbyResponders equatorStore 0 0 10 = [] ∧
    equatorResponder.data.latitude = some 0 ∧
    equatorResponder.data.longitude = some 0 ∧
    calculateDistance 0 0 0 0 / 1000 ≤ 10 := by
  refine ⟨nearby_equator_empty, rfl, rfl, ?_⟩
  rw [calculateDistance_self]
  norm_num

/-- C2 as amended: the nearby query returns exactly the responders whose
latitude and longitude are truthy — non-null and nonzero, not merely non-null
— and within `radiusKm` of the query point by haversine distance converted to
kilometers, each with that distance attached, sorted ascending by distance; in
the scenario with responders at (0,0) and (0, 0.1°) both latitudes are 0 and
falsy, so the query at the origin with radius 10 km returns the empty list
rather than the responder at the origin. -/
theorem nearby_responders_characterization :
    (∀ (s : Store ResponderData) (lat lng radiusKm : ℝ)
       (nr : NearbyResponder),
      nr ∈ getNearbyResponders s lat lng radiusKm ↔
      ∃ r ∈ s.getAll, truthy r.data.latitude = true ∧
        truthy r.data.longitude = true ∧
        nr.responder = r ∧
        nr.distance = calculateDistance lat lng (coordVal r.data.latitude)
          (coordVal r.data.longitude) / 1000 ∧
        nr.distance ≤ radiusKm) ∧
    (∀ (s : Store ResponderData) (lat lng radiusKm : ℝ),
      (getNearbyResponders s lat lng radiusKm).Pairwise
        (fun a b => a.distance ≤ b.distance)) ∧
    getNearbyResponders equatorStore 0 0 10 = [] := by
  refine ⟨?_, ?_, nearby_equator_empty⟩
  · intro s lat lng radiusKm nr
    simp only [getNearbyResponders, List.mem_mergeSort, List.mem_filter,
      List.mem_map, Bool.and_eq_true]
    constructor
    · rintro ⟨⟨r, ⟨hr, hlat, hlng⟩, heq⟩, hle⟩
      subst heq
      rw [itef_iff] at hle
      exact ⟨r, hr, hlat, hlng, rfl, rfl, hle⟩
    · rintro ⟨r, hr, hlat, hlng, hresp, hdist, hle⟩
      obtain ⟨nresp, ndist⟩ := nr
      dsimp only at hresp hdist hle
      subst hresp
      subst hdist
      exact ⟨⟨nresp, ⟨hr, hlat, hlng⟩, rfl⟩, by rw [itef_iff]; exact hle⟩
  · intro s lat lng radiusKm
    have hp : (getNearbyResponders s lat lng radiusKm).Pairwise
        (fun a b : NearbyResponder =>
          (if a.distance ≤ b.distance then true else false) = true) := by
      simp only [getNearbyResponders]
      refine List.sorted_mergeSort ?_ ?_ _
      · intro a b c hab hbc
        rw [itef_iff] at hab hbc ⊢
        exact le_trans hab hbc
      · intro a b
        rcases le_total a.distance b.distance with h | h
        · rw [if_pos h]
          exact Bool.true_or _
        · rw [if_pos h]
          exact Bool.or_true _
    exact hp.imp (fun h => itef_iff.mp h)

end SafeHer
